import Mathlib

/-!
Verification of the concurrent school-meal lookup pipeline of
`taebaek_meal.py` (NutriMentor/taebaek_school_meal).

The script queries the NEIS open-data API for the meal menus of a fixed
list of schools in the Taebaek region.  The network layer is modelled by
explicit response values (one per request the script would issue): an
`err` constructor stands for any exception raised by
`requests.get` / `raise_for_status` / `.json()` (timeout, network failure,
non-2xx status, malformed JSON), and an `ok` constructor carries the
parsed JSON shape the code actually inspects.  String processing is
modelled at the character-list level; Python `str.strip` is modelled with
the whitespace set space/tab/CR/LF (the characters relevant to this data),
and the regex `\d` class is modelled as the ASCII digits.
-/

/-- Whitespace, as used by the model of Python `str.strip` and of `\s` in
the display regex. -/
def isWS (c : Char) : Bool := c == ' ' || c == '\t' || c == '\n' || c == '\r'

/-- Model of Python `str.strip` on a character list: drop whitespace from
both ends. -/
def trimChars (cs : List Char) : List Char :=
  ((cs.dropWhile isWS).reverse.dropWhile isWS).reverse

/-- Model of Python `str.strip` on strings. -/
def strip (s : String) : String := String.mk (trimChars s.data)

/-- Model of Python `sub in s` (substring containment), used by
`get_school_category`. -/
def containsSub (cs sub : List Char) : Bool :=
  match cs with
  | [] => sub.isEmpty
  | _ :: rest => sub.isPrefixOf cs || containsSub rest sub

/-- Substring containment on strings: `str_contains s sub` models the
Python expression `sub in s`. -/
def str_contains (s sub : String) : Bool := containsSub s.data sub.data

/-- `taebaek_meal.py` line 30: the education-office code for the region. -/
def OFFICE_CODE : String := "K10"

/-- `taebaek_meal.py` lines 31-39: the fixed list of queried schools. -/
def TAEBAEK_SCHOOLS : List String :=
  ["동점초등학교", "미동초등학교", "삼성초등학교", "상장초등학교", "장성초등학교",
   "철암초등학교", "태백초등학교", "태서초등학교", "통리초등학교", "함태초등학교",
   "황지중앙초등학교", "황지초등학교",
   "상장중학교", "세연중학교", "태백중학교", "함태중학교", "황지중학교",
   "장성여자고등학교", "철암고등학교", "한국항공고등학교", "황지고등학교",
   "황지정보산업고등학교",
   "태백라온학교"]

/-- `taebaek_meal.py` lines 42-53 (`get_school_category`): classify a school
name by substring, checked in the order 초등학교, 중학교, 고등학교, 라온학교,
with 기타 as the default. -/
def get_school_category (school_name : String) : String :=
  if str_contains school_name "초등학교" then "초등학교"
  else if str_contains school_name "중학교" then "중학교"
  else if str_contains school_name "고등학교" then "고등학교"
  else if str_contains school_name "라온학교" then "특수학교"
  else "기타"

/-- One candidate row of the school-directory response
(`data['schoolInfo'][1]['row'][k]`), with the two fields the code reads. -/
structure SchoolRow where
  SCHUL_NM : String
  SD_SCHUL_CODE : String
deriving DecidableEq

/-- The outcome of the school-directory HTTP request issued by
`search_school_code` (lines 57-65).  `err` is any exception raised by the
request, status check or JSON parse; `ok rows` is a parsed JSON body,
where `rows = none` models a body in which `'schoolInfo' in data and
'row' in data['schoolInfo'][1]` fails, and `rows = some l` models the
candidate list `data['schoolInfo'][1]['row']`. -/
inductive SearchResponse where
  | err : SearchResponse
  | ok : Option (List SchoolRow) → SearchResponse
deriving DecidableEq

/-- The exact-match loop of `search_school_code` (lines 68-70): return the
code of the first row whose `SCHUL_NM` equals the queried name. -/
def find_exact : List SchoolRow → String → Option String
  | [], _ => none
  | s :: rest, school_name =>
    if s.SCHUL_NM == school_name then some s.SD_SCHUL_CODE
    else find_exact rest school_name

/-- `taebaek_meal.py` lines 55-74 (`search_school_code`): look up the school
code for a name.  Any request exception yields `none` (the `except` clause,
line 72-73); a body without the row list yields `none` (fall-through to
line 74); an exact name match wins, otherwise the first candidate's code is
returned (line 71); an empty candidate list makes `schools[0]` raise
`IndexError`, which the same `except` swallows into `none`. -/
def search_school_code (resp : SearchResponse) (school_name : String) : Option String :=
  match resp with
  | SearchResponse.err => none
  | SearchResponse.ok none => none
  | SearchResponse.ok (some rows) =>
    match find_exact rows school_name with
    | some code => some code
    | none =>
      match rows with
      | [] => none
      | r :: _ => some r.SD_SCHUL_CODE

/-- One record of the meal-service response
(`data['mealServiceDietInfo'][1]['row'][0]`); `DDISH_NM` is read with
`record.get('DDISH_NM', '')`, hence the `Option`. -/
structure MealRow where
  DDISH_NM : Option String
deriving DecidableEq

/-- The outcome of the meal-service HTTP request issued by
`fetch_meal_menu` (lines 79-88), with the same reading as
`SearchResponse`: `err` is any request exception, `ok none` a body where
the `mealServiceDietInfo`/`row` keys are missing, `ok (some l)` a body
with record list `l`. -/
inductive FetchResponse where
  | err : FetchResponse
  | ok : Option (List MealRow) → FetchResponse
deriving DecidableEq

/-- Sentinel text returned by `fetch_meal_menu` on a request error
(line 96). -/
def FAILED_MSG : String := "정보를 불러오는 데 실패했습니다."

/-- Sentinel text returned by `fetch_meal_menu` when the body has no row
list (line 97). -/
def NODATA_MSG : String := "정보가 없습니다."

/-- Sentinel text used by `get_single_school_data` when no school code was
found (line 109). -/
def NOTFOUND_MSG : String := "❌ 학교 코드를 찾을 수 없습니다."

/-- Model of Python `dish_info.split('<br/>')`: split a character list on
the literal marker `<br/>`, scanning left to right, keeping empty
segments.  The accumulator holds the current segment reversed. -/
def splitBr : List Char → List Char → List (List Char)
  | [], acc => [acc.reverse]
  | '<' :: 'b' :: 'r' :: '/' :: '>' :: rest, acc => acc.reverse :: splitBr rest []
  | c :: rest, acc => splitBr rest (c :: acc)

/-- `taebaek_meal.py` line 93: `[d.strip() for d in dish_info.split('<br/>')
if d.strip()]` — split on the line-break marker, strip each item, drop the
items that are empty after stripping. -/
def parse_dishes (dish_info : String) : List String :=
  ((((splitBr dish_info.data []).map trimChars).filter (fun cs => !cs.isEmpty)).map String.mk)

/-- `taebaek_meal.py` lines 77-97 (`fetch_meal_menu`): fetch and parse a
menu.  A request exception yields the failure sentinel (line 96); a body
without the row list yields the no-data sentinel (line 97); an empty row
list makes `row[0]` (line 90) raise `IndexError`, which the `except`
swallows into the failure sentinel; otherwise the first record's
`DDISH_NM` (default `''`) is split into dishes. -/
def fetch_meal_menu (resp : FetchResponse) : List String :=
  match resp with
  | FetchResponse.err => [FAILED_MSG]
  | FetchResponse.ok none => [NODATA_MSG]
  | FetchResponse.ok (some []) => [FAILED_MSG]
  | FetchResponse.ok (some (r :: _)) => parse_dishes (r.DDISH_NM.getD "")

/-- Per-school result record built by `get_single_school_data` and by the
coordinator's `except` branch: the dict
`{'학교급': category, '학교명': school_name, '메뉴': menu}`. -/
structure MealRecord where
  category : String
  schoolName : String
  menu : List String
deriving DecidableEq

/-- `taebaek_meal.py` lines 100-109 (`get_single_school_data`): the
per-school worker.  `fetchResp` gives the provider's answer to the menu
request for a given school code (the other query parameters are fixed for
the cycle).  The Python guard is `if school_code:`, which is falsy both
for `None` and for the empty string, hence the inner `isEmpty` test. -/
def get_single_school_data (searchResp : SearchResponse)
    (fetchResp : String → FetchResponse) (school_name : String) : MealRecord :=
  let category := get_school_category school_name
  match search_school_code searchResp school_name with
  | some code =>
    if code = "" then
      { category := category, schoolName := school_name, menu := [NOTFOUND_MSG] }
    else
      { category := category, schoolName := school_name,
        menu := fetch_meal_menu (fetchResp code) }
  | none => { category := category, schoolName := school_name, menu := [NOTFOUND_MSG] }

/-- Instrumented copy of `get_single_school_data` that additionally returns
the list of school codes passed to the menu fetcher, in call order, so
that "the fetcher is (not) invoked" is expressible.  The first component
is exactly `get_single_school_data`. -/
def get_single_school_data_traced (searchResp : SearchResponse)
    (fetchResp : String → FetchResponse) (school_name : String) :
    MealRecord × List String :=
  let category := get_school_category school_name
  match search_school_code searchResp school_name with
  | some code =>
    if code = "" then
      ({ category := category, schoolName := school_name, menu := [NOTFOUND_MSG] }, [])
    else
      ({ category := category, schoolName := school_name,
         menu := fetch_meal_menu (fetchResp code) }, [code])
  | none =>
    ({ category := category, schoolName := school_name, menu := [NOTFOUND_MSG] }, [])

/-- Character class `[\d\.]` of the display regex (line 161), with `\d`
modelled as the ASCII digits. -/
def isCodeChar (c : Char) : Bool := c.isDigit || c == '.'

/-- Helper for the display regex: scan the reversed characters that stand
before the final `)`, collecting allergen-code characters until the
matching `(`.  Returns the code characters (in original order) and the
remaining (still reversed) characters before the `(`; `none` when the
pattern cannot match (no `(` , a stray character, or an empty code
group). -/
def grabCodesRev : List Char → List Char → Option (List Char × List Char)
  | [], _ => none
  | c :: rest, acc =>
    if c == '(' then (if acc.isEmpty then none else some (acc, rest))
    else if isCodeChar c then grabCodesRev rest (c :: acc)
    else none

/-- Model of `re.match(r'^(.*?)\s*\(([\d\.]+)\)$', raw)` at line 161,
returning `(group(1).strip(), group(2).strip())` on success.  The pattern
matches exactly when the string ends in `)` preceded by a nonempty run of
digits/periods preceded by `(`; lazy `(.*?)` plus `\s*` make `group(1)`
the part before that `(` minus trailing whitespace, and since `.` does not
match a newline the match fails when that part contains one.  `group(2)`
contains no whitespace, so its `strip` is the identity. -/
def re_match_allergen (s : String) : Option (String × String) :=
  match s.data.reverse with
  | ')' :: rest =>
    match grabCodesRev rest [] with
    | some (codes, beforeRev) =>
      let coreRev := beforeRev.dropWhile isWS
      if coreRev.contains '\n' then none
      else some (String.mk (trimChars coreRev.reverse), String.mk codes)
    | none => none
  | _ => none

/-- Reading of a parenthesized allergen-code group such as `1.5.6` as the
specification's list of integer codes: the period-separated decimal
numerals, in order.  (The script itself keeps the group as a string; this
definition is the bridge between that string and the spec's
`allergenCodes` list.) -/
def splitDot : List Char → List Char → List (List Char)
  | [], acc => [acc.reverse]
  | c :: rest, acc =>
    if c == '.' then acc.reverse :: splitDot rest [] else splitDot rest (c :: acc)

/-- Decimal reading of a digit run; `none` for an empty or non-digit run. -/
def charsToNat? (cs : List Char) : Option Nat :=
  if cs.isEmpty then none
  else if cs.all Char.isDigit then
    some (cs.foldl (fun n c => 10 * n + (c.toNat - 48)) 0)
  else none

/-- Integer allergen codes denoted by a code group string such as
`"1.5.6"`. -/
def allergen_codes (s : String) : List Nat :=
  (splitDot s.data []).filterMap charsToNat?

/-- The specification's `DishEntry` view of one raw dish string: the
parsed `(name, allergenCodes)` pair when the display regex matches, and
the whole (stripped) text with no codes otherwise (lines 161-171). -/
def dishEntryOfRaw (raw : String) : String × List Nat :=
  match re_match_allergen raw with
  | some (name, codes) => (name, allergen_codes codes)
  | none => (strip raw, [])

/-- `taebaek_meal.py` lines 157-178, one table cell: read `menu_list[i]`,
regex-parse it, and build the cell's HTML, without touching the menu list.
The function returns the HTML fragment together with the menu list as the
loop body leaves it, so that the absence of mutation is part of the
statement.  An out-of-range index models the `i < len(menu_list)` guard
failing (the cell stays empty). -/
def render_menu_item (menu_list : List String) (i : Nat) (show_allergy : Bool) :
    String × List String :=
  let menu_item :=
    match menu_list.get? i with
    | some menu_item_raw =>
      let content :=
        match re_match_allergen menu_item_raw with
        | some (dish_name, allergy_info) =>
          let base := "<div style=\"font-weight: 500;\">" ++ dish_name ++ "</div>"
          if show_allergy then
            base ++ "<div style=\"font-size: 12px; color: #e74c3c;\">(" ++
              allergy_info ++ ")</div>"
          else base
        | none => "<div style=\"font-weight: 500;\">" ++ strip menu_item_raw ++ "</div>"
      "<div style=\"margin: 2px 0; padding: 6px 4px; background-color: rgba(102, 126, 234, 0.08); border-radius: 4px; font-size: 13px;\">" ++
        content ++ "</div>"
    | none => ""
  (menu_item, menu_list)

/-- The record built by the coordinator for future `i`: the worker's own
record when `future.result()` returns, and the synthetic record of the
`except Exception` branch (line 245) when it raises, where `exc i = some e`
models the exception text.  `taebaek_meal.py` lines 241-245. -/
def handle_future (schools : List String) (searchResp : Nat → SearchResponse)
    (fetchResp : Nat → String → FetchResponse) (exc : Nat → Option String)
    (i : Nat) : MealRecord :=
  let school_name := schools.getD i ""
  match exc i with
  | some e =>
    { category := get_school_category school_name, schoolName := school_name,
      menu := ["오류 발생: " ++ e] }
  | none => get_single_school_data (searchResp i) (fetchResp i) school_name

/-- The dict-building loop of the coordinator, starting from the partial
dict `m0`: insert each completed future's record keyed by its school name,
in completion order `order`.  Represented as an association list with the
most recent insertion first, so lookup returns the latest value, matching
dict assignment. -/
def results_map_from (schools : List String) (searchResp : Nat → SearchResponse)
    (fetchResp : Nat → String → FetchResponse) (exc : Nat → Option String)
    (order : List Nat) (m0 : List (String × MealRecord)) : List (String × MealRecord) :=
  order.foldl
    (fun m i => (schools.getD i "", handle_future schools searchResp fetchResp exc i) :: m)
    m0

/-- The `results_map` dict of the coordinator (lines 237-245): the
insertion loop run over the completion order `order` (the order
`as_completed` yields the futures), starting from the empty dict. -/
def results_map (schools : List String) (searchResp : Nat → SearchResponse)
    (fetchResp : Nat → String → FetchResponse) (exc : Nat → Option String)
    (order : List Nat) : List (String × MealRecord) :=
  results_map_from schools searchResp fetchResp exc order []

/-- Dict lookup `results_map[school_name]`, first (= latest) match. -/
def mapLookup : List (String × MealRecord) → String → Option MealRecord
  | [], _ => none
  | (k, v) :: rest, name => if k == name then some v else mapLookup rest name

/-- The reassembly loop of lines 251-252: iterate the original school list
and read each school's record out of `results_map`.  A missing key would
raise `KeyError`, modelled by `none`. -/
def gather (m : List (String × MealRecord)) : List String → Option (List MealRecord)
  | [] => some []
  | s :: rest =>
    match mapLookup m s with
    | some r => (gather m rest).map (fun l => r :: l)
    | none => none

/-- The fan-out coordinator of lines 226-252 (`runAll` in the
specification): run one worker per school, collect the records in
completion order `order` into `results_map`, then reassemble them in the
original input order.  `searchResp i` / `fetchResp i` are the provider's
answers to the requests made on behalf of school `i`, and `exc i` models
an unexpected exception escaping worker `i`. -/
def runAll (schools : List String) (searchResp : Nat → SearchResponse)
    (fetchResp : Nat → String → FetchResponse) (exc : Nat → Option String)
    (order : List Nat) : Option (List MealRecord) :=
  gather (results_map schools searchResp fetchResp exc order) schools

/-- `taebaek_meal.py` line 231: `ThreadPoolExecutor(max_workers=10)`. -/
def max_workers : Nat := 10

/-- Events of the operational model of the thread pool: worker-task `i`
starts or finishes its network work. -/
inductive PoolEvent where
  | start : Nat → PoolEvent
  | finish : Nat → PoolEvent
deriving DecidableEq

/-- Whether a pool event is a task start. -/
def isStart : PoolEvent → Bool
  | PoolEvent.start _ => true
  | PoolEvent.finish _ => false

/-- Number of task starts in a trace. -/
def nStarts (tr : List PoolEvent) : Nat := tr.countP isStart

/-- Number of task finishes in a trace. -/
def nFins (tr : List PoolEvent) : Nat := tr.countP (fun e => !isStart e)

/-- The event trace of one pool thread executing its assigned tasks
sequentially: each task is started and finished before the next one
begins.  This is the operational semantics of a `ThreadPoolExecutor`
thread: a thread works on at most one submitted call at a time. -/
def workerTrace : List Nat → List PoolEvent
  | [] => []
  | i :: rest => PoolEvent.start i :: PoolEvent.finish i :: workerTrace rest

/-- `interleaves ws tr` holds when `tr` is an interleaving of the worker
traces `ws`: at each step some worker emits its next event.  This is the
set of global event orders the pool can produce. -/
def interleaves : List (List PoolEvent) → List PoolEvent → Bool
  | ws, [] => ws.all List.isEmpty
  | ws, x :: tr =>
    (List.range ws.length).any fun k =>
      match ws.get? k with
      | some (y :: rest) => y == x && interleaves (ws.set k rest) tr
      | _ => false

/-- A worker's remaining trace between tasks: a sequence of
start-`i`/finish-`i` pairs. -/
def pairsForm : List PoolEvent → Bool
  | [] => true
  | PoolEvent.start i :: PoolEvent.finish j :: rest => i == j && pairsForm rest
  | _ => false

/-- A worker's remaining trace in the middle of a task: the pending finish
followed by start/finish pairs. -/
def activeRem : List PoolEvent → Bool
  | PoolEvent.finish _ :: rest => pairsForm rest
  | _ => false

/-- Well-formed remaining worker trace: idle or mid-task. -/
def wfRem (l : List PoolEvent) : Bool := pairsForm l || activeRem l

/-- Number of workers currently mid-task. -/
def debt : List (List PoolEvent) → Nat
  | [] => 0
  | l :: ws => (if activeRem l then 1 else 0) + debt ws

example : get_school_category "황지중앙초등학교" = "초등학교" := by decide
example : get_school_category "태백라온학교" = "특수학교" := by decide

/-- If some row matches the name exactly, the exact-match loop returns the
code of such a row (the first one). -/
lemma find_exact_of_mem (rows : List SchoolRow) (name : String)
    (h : ∃ s ∈ rows, s.SCHUL_NM = name) :
    ∃ t ∈ rows, t.SCHUL_NM = name ∧ find_exact rows name = some t.SD_SCHUL_CODE := by
  induction rows with
  | nil => simp at h
  | cons s rest ih =>
    by_cases hs : s.SCHUL_NM = name
    · exact ⟨s, by simp, hs, by simp [find_exact, hs]⟩
    · obtain ⟨u, hu, hun⟩ := h
      rcases List.mem_cons.mp hu with huh | hur
      · exact absurd (huh ▸ hun) hs
      · obtain ⟨t, ht, htn, hfind⟩ := ih ⟨u, hur, hun⟩
        exact ⟨t, List.mem_cons_of_mem _ ht, htn, by simp [find_exact, hs, hfind]⟩

/-- If no row matches the name exactly, the exact-match loop fails. -/
lemma find_exact_of_none (rows : List SchoolRow) (name : String)
    (h : ∀ s ∈ rows, s.SCHUL_NM ≠ name) : find_exact rows name = none := by
  induction rows with
  | nil => rfl
  | cons s rest ih =>
    have hs : s.SCHUL_NM ≠ name := h s (by simp)
    simp only [find_exact, beq_iff_eq, hs, if_false]
    exact ih (fun u hu => h u (List.mem_cons_of_mem _ hu))

/-- C4: the identifier resolver returns the identifier of the row whose
name field exactly equals the queried school name; with no exact match it
returns the first candidate's identifier; and it returns `None` when the
request errors, when the body is malformed (no candidate list) and when
the candidate list is empty — every error is swallowed into the `None`
outcome. -/
theorem search_school_code_spec :
    ∀ (name : String) (rows : List SchoolRow) (r : SchoolRow) (rest : List SchoolRow),
      search_school_code SearchResponse.err name = none ∧
      search_school_code (SearchResponse.ok none) name = none ∧
      search_school_code (SearchResponse.ok (some [])) name = none ∧
      ((∃ s ∈ rows, s.SCHUL_NM = name) →
        ∃ t ∈ rows, t.SCHUL_NM = name ∧
          search_school_code (SearchResponse.ok (some rows)) name =
            some t.SD_SCHUL_CODE) ∧
      ((∀ s ∈ r :: rest, s.SCHUL_NM ≠ name) →
        search_school_code (SearchResponse.ok (some (r :: rest))) name =
          some r.SD_SCHUL_CODE) := by
  intro name rows r rest
  refine ⟨rfl, rfl, rfl, ?_, ?_⟩
  · intro h
    obtain ⟨t, ht, htn, hfind⟩ := find_exact_of_mem rows name h
    exact ⟨t, ht, htn, by simp [search_school_code, hfind]⟩
  · intro h
    simp [search_school_code, find_exact_of_none _ _ h]

/-- Witness for C4: on a list with one exact match the resolver picks it,
and with no exact match it falls back to the first candidate. -/
theorem search_school_code_spec_check :
    (∃ t ∈ [SchoolRow.mk "황지중앙초등학교" "C1", SchoolRow.mk "황지초등학교" "C2"],
        t.SCHUL_NM = "황지초등학교" ∧
        search_school_code
            (SearchResponse.ok (some [SchoolRow.mk "황지중앙초등학교" "C1",
              SchoolRow.mk "황지초등학교" "C2"])) "황지초등학교" =
          some t.SD_SCHUL_CODE) ∧
    search_school_code (SearchResponse.ok (some [SchoolRow.mk "태백초등학교" "C3"]))
        "세연중학교" = some "C3" :=
  ⟨(search_school_code_spec "황지초등학교"
      [SchoolRow.mk "황지중앙초등학교" "C1", SchoolRow.mk "황지초등학교" "C2"]
      (SchoolRow.mk "태백초등학교" "C3") []).2.2.2.1 (by decide),
   (search_school_code_spec "세연중학교" [] (SchoolRow.mk "태백초등학교" "C3")
      []).2.2.2.2 (by decide)⟩

/-- C8: the resolver is deterministic — two calls with identical arguments
against the same provider data give the same outcome.  In this pure model
the resolver has no mutable state or cache, so the two calls of
`resolve_twice` evaluate the same function of the same response. -/
def resolve_twice (provider : String → SearchResponse) (school_name : String) :
    Option String × Option String :=
  (search_school_code (provider school_name) school_name,
   search_school_code (provider school_name) school_name)

/-- C8: calling the resolver twice with identical arguments against an
unchanged provider dataset yields the same identifier (or the same
not-found outcome) both times. -/
theorem resolve_idempotent :
    ∀ (provider : String → SearchResponse) (school_name : String),
      (resolve_twice provider school_name).1 = (resolve_twice provider school_name).2 :=
  fun _ _ => rfl

/-- C5 counterexample: a successful response whose record list is present
but empty yields the fetch-failure sentinel, not the no-data sentinel —
`row[0]` raises `IndexError` inside the `try` and the `except` swallows it
into the failure message.  So "NoData exactly when the response has no
records" fails, and FetchFailed occurs without any request error. -/
theorem fetch_empty_rows_failed :
    fetch_meal_menu (FetchResponse.ok (some [])) = [FAILED_MSG] ∧
    fetch_meal_menu (FetchResponse.ok (some [])) ≠ [NODATA_MSG] := by
  exact ⟨rfl, by decide⟩

/-- C5 (amended): the fetcher returns the no-data sentinel when the
response body lacks the record list; it returns the fetch-failure sentinel
when the request raises any error and also when the record list is present
but empty; with a first record it returns the parsed dish list; and a
fetch-time error such as a timeout reaches the worker boundary as the
failure-sentinel value inside the worker's record, not as an exception. -/
theorem fetch_meal_menu_sentinels_amended :
    ∀ (r : MealRow) (rows : List MealRow) (searchResp : SearchResponse)
      (name code : String),
      fetch_meal_menu FetchResponse.err = [FAILED_MSG] ∧
      fetch_meal_menu (FetchResponse.ok none) = [NODATA_MSG] ∧
      fetch_meal_menu (FetchResponse.ok (some [])) = [FAILED_MSG] ∧
      fetch_meal_menu (FetchResponse.ok (some (r :: rows))) =
        parse_dishes (r.DDISH_NM.getD "") ∧
      (search_school_code searchResp name = some code → code ≠ "" →
        get_single_school_data searchResp (fun _ => FetchResponse.err) name =
          { category := get_school_category name, schoolName := name,
            menu := [FAILED_MSG] }) := by
  intro r rows searchResp name code
  refine ⟨rfl, rfl, rfl, rfl, ?_⟩
  intro hcode hne
  simp [get_single_school_data, hcode, hne, fetch_meal_menu]

/-- Witness for C5 (amended): a resolved school whose every fetch request
times out ends with the failure sentinel in its record. -/
theorem fetch_meal_menu_sentinels_check :
    get_single_school_data (SearchResponse.ok (some [SchoolRow.mk "철암고등학교" "C7"]))
        (fun _ => FetchResponse.err) "철암고등학교" =
      { category := "고등학교", schoolName := "철암고등학교", menu := [FAILED_MSG] } :=
  ((fetch_meal_menu_sentinels_amended (MealRow.mk none) []
      (SearchResponse.ok (some [SchoolRow.mk "철암고등학교" "C7"])) "철암고등학교"
      "C7").2.2.2.2 (by decide) (by decide)).trans (by decide)

/-- C2 counterexample: when the provider's directory row carries the empty
string as the school code, the resolver returns it (not `None`), yet the
worker still short-circuits to the not-found record without invoking the
fetcher — `if school_code:` is falsy for the empty string as well as for
`None`.  This refutes "otherwise (resolver did not return None) the
fetcher is called exactly once". -/
theorem worker_empty_code_short_circuits :
    search_school_code (SearchResponse.ok (some [SchoolRow.mk "동점초등학교" ""]))
        "동점초등학교" = some "" ∧
    (get_single_school_data_traced
        (SearchResponse.ok (some [SchoolRow.mk "동점초등학교" ""]))
        (fun _ => FetchResponse.err) "동점초등학교").2 = [] ∧
    (get_single_school_data_traced
        (SearchResponse.ok (some [SchoolRow.mk "동점초등학교" ""]))
        (fun _ => FetchResponse.err) "동점초등학교").1.menu = [NOTFOUND_MSG] := by
  exact ⟨by decide, by decide, by decide⟩

/-- C2 (amended): the instrumented worker coincides with the plain worker;
if the resolver yields `None` or the empty-string identifier the worker
short-circuits to the not-found record with no fetcher call; and if it
yields a nonempty identifier the fetcher is called exactly once, with that
identifier, and its outcome is wrapped into the record. -/
theorem worker_short_circuit_amended :
    ∀ (searchResp : SearchResponse) (fetchResp : String → FetchResponse) (name : String),
      (get_single_school_data_traced searchResp fetchResp name).1 =
        get_single_school_data searchResp fetchResp name ∧
      (search_school_code searchResp name = none ∨
          search_school_code searchResp name = some "" →
        get_single_school_data_traced searchResp fetchResp name =
          ({ category := get_school_category name, schoolName := name,
             menu := [NOTFOUND_MSG] }, [])) ∧
      (∀ code, search_school_code searchResp name = some code → code ≠ "" →
        get_single_school_data_traced searchResp fetchResp name =
          ({ category := get_school_category name, schoolName := name,
             menu := fetch_meal_menu (fetchResp code) }, [code])) := by
  intro searchResp fetchResp name
  refine ⟨?_, ?_, ?_⟩
  · cases h : search_school_code searchResp name with
    | none => simp [get_single_school_data, get_single_school_data_traced, h]
    | some code =>
      by_cases hc : code = "" <;>
        simp [get_single_school_data, get_single_school_data_traced, h, hc]
  · rintro (h | h) <;> simp [get_single_school_data_traced, h]
  · intro code h hne
    simp [get_single_school_data_traced, h, hne]

/-- Witness for C2 (amended): a failed resolution short-circuits with an
empty fetch-call trace, and a successful resolution calls the fetcher
exactly once with the resolved code. -/
theorem worker_short_circuit_amended_check :
    (get_single_school_data_traced SearchResponse.err (fun _ => FetchResponse.err)
        "태백중학교" =
      ({ category := "중학교", schoolName := "태백중학교", menu := [NOTFOUND_MSG] }, [])) ∧
    (get_single_school_data_traced (SearchResponse.ok (some [SchoolRow.mk "태백중학교" "C9"]))
        (fun _ => FetchResponse.ok none) "태백중학교" =
      ({ category := "중학교", schoolName := "태백중학교", menu := [NODATA_MSG] }, ["C9"])) :=
  ⟨((worker_short_circuit_amended SearchResponse.err (fun _ => FetchResponse.err)
        "태백중학교").2.1 (Or.inl rfl)).trans (by decide),
   ((worker_short_circuit_amended (SearchResponse.ok (some [SchoolRow.mk "태백중학교" "C9"]))
        (fun _ => FetchResponse.ok none) "태백중학교").2.2 "C9" (by decide)
      (by decide)).trans (by decide)⟩

example :
    search_school_code (SearchResponse.ok (some [⟨"태백초등학교", "7631033"⟩])) "태백초등학교" =
      some "7631033" := by decide

/-- C3: parsing a provider dish-list string splits on `<br/>`, strips each
item, drops the items that are empty after stripping and preserves provider
order (the kept dishes form a sublist of the stripped segments, in segment
order, and every kept dish is the strip of one segment and is nonempty);
in particular `"백미밥(1.5.6)<br/>김치찌개<br/>"` parses to the two raw dishes
`백미밥(1.5.6)` and `김치찌개` (the trailing empty segment dropped), whose
display-time `DishEntry` views are `(백미밥, [1,5,6])` and `(김치찌개, [])`. -/
theorem parse_dishes_spec :
    (∀ s : String,
      (parse_dishes s).Sublist
        ((splitBr s.data []).map (fun cs => String.mk (trimChars cs))) ∧
      (∀ d ∈ parse_dishes s, ∃ cs ∈ splitBr s.data [],
        d = String.mk (trimChars cs) ∧ trimChars cs ≠ [])) ∧
    parse_dishes "백미밥(1.5.6)<br/>김치찌개<br/>" = ["백미밥(1.5.6)", "김치찌개"] ∧
    (parse_dishes "백미밥(1.5.6)<br/>김치찌개<br/>").map dishEntryOfRaw =
      [("백미밥", [1, 5, 6]), ("김치찌개", [])] := by
  refine ⟨fun s => ⟨?_, ?_⟩, by decide, by decide⟩
  · have h :=
      (List.filter_sublist (p := fun cs => !cs.isEmpty)
        ((splitBr s.data []).map trimChars)).map String.mk
    simpa [List.map_map, Function.comp] using h
  · intro d hd
    simp only [parse_dishes, List.mem_map, List.mem_filter] at hd
    obtain ⟨cs', ⟨hmem, hne⟩, hmk⟩ := hd
    obtain ⟨cs, hcs, htrim⟩ := hmem
    refine ⟨cs, hcs, ?_, ?_⟩
    · rw [← hmk, htrim]
    · rw [htrim]
      rcases cs' with _ | _
      · simp at hne
      · simp

/-- Witness for C3: the dish `김치찌개` of the example string is the strip
of one of the split segments and is nonempty. -/
theorem parse_dishes_spec_check :
    ∃ cs ∈ splitBr ("백미밥(1.5.6)<br/>김치찌개<br/>").data [],
      "김치찌개" = String.mk (trimChars cs) ∧ trimChars cs ≠ [] :=
  (parse_dishes_spec.1 "백미밥(1.5.6)<br/>김치찌개<br/>").2 "김치찌개" (by decide)

/-- C7: allergen-code extraction is a pure post-hoc parse performed at
presentation time — rendering a table cell reads the dish entry produced
by the fetcher, parses its text with the display regex, and leaves the
stored menu list (and hence every stored dish text) unchanged. -/
theorem allergen_extraction_frame :
    ∀ (resp : FetchResponse) (menu_list : List String) (i : Nat) (b : Bool),
      (render_menu_item (fetch_meal_menu resp) i b).2 = fetch_meal_menu resp ∧
      (render_menu_item menu_list i b).2 = menu_list :=
  fun _ _ _ _ => ⟨rfl, rfl⟩

/-- Bridging lemma: `getD` with an in-range index is `get`. -/
lemma getD_eq_get (l : List String) (i : Nat) (h : i < l.length) :
    l.getD i "" = l.get ⟨i, h⟩ := by
  simp [List.getD_eq_getElem?_getD, List.getElem?_eq_getElem h]

/-- Every record the worker builds carries the school's own name and the
category derived from it — in the success, no-data, fetch-failure and
identifier-not-found branches alike. -/
lemma get_single_school_data_fields (sr : SearchResponse)
    (fr : String → FetchResponse) (name : String) :
    (get_single_school_data sr fr name).schoolName = name ∧
    (get_single_school_data sr fr name).category = get_school_category name := by
  unfold get_single_school_data
  rcases h : search_school_code sr name with _ | code
  · exact ⟨rfl, rfl⟩
  · by_cases hc : code = "" <;> simp [hc]

/-- Every record the coordinator stores for future `i` — the worker's
record or the synthetic worker-error record — carries the name of school
`i` and the category derived from it. -/
lemma handle_future_fields (schools : List String) (sr : Nat → SearchResponse)
    (fr : Nat → String → FetchResponse) (exc : Nat → Option String) (i : Nat) :
    (handle_future schools sr fr exc i).schoolName = schools.getD i "" ∧
    (handle_future schools sr fr exc i).category =
      get_school_category (schools.getD i "") := by
  unfold handle_future
  rcases h : exc i with _ | e
  · simpa using get_single_school_data_fields (sr i) (fr i) (schools.getD i "")
  · exact ⟨rfl, rfl⟩

/-- Unfolding of the dict-building loop on a cons. -/
lemma results_map_from_cons (schools : List String) (sr : Nat → SearchResponse)
    (fr : Nat → String → FetchResponse) (exc : Nat → Option String)
    (a : Nat) (rest : List Nat) (m0 : List (String × MealRecord)) :
    results_map_from schools sr fr exc (a :: rest) m0 =
      results_map_from schools sr fr exc rest
        ((schools.getD a "", handle_future schools sr fr exc a) :: m0) := rfl

/-- Every entry of the built dict comes from the initial dict or from one
completed future of the completion order. -/
lemma results_map_from_mem (schools : List String) (sr : Nat → SearchResponse)
    (fr : Nat → String → FetchResponse) (exc : Nat → Option String) :
    ∀ (order : List Nat) (m0 : List (String × MealRecord)) (k : String) (v : MealRecord),
      (k, v) ∈ results_map_from schools sr fr exc order m0 →
      (k, v) ∈ m0 ∨ ∃ j ∈ order, k = schools.getD j "" ∧
        v = handle_future schools sr fr exc j := by
  intro order
  induction order with
  | nil => intro m0 k v h; exact Or.inl h
  | cons a rest ih =>
    intro m0 k v h
    rw [results_map_from_cons] at h
    rcases ih _ k v h with hin | ⟨j, hj, hk, hv⟩
    · rcases List.mem_cons.mp hin with heq | hm0
      · obtain ⟨hk, hv⟩ := Prod.mk.inj heq
        exact Or.inr ⟨a, by simp, hk, hv⟩
      · exact Or.inl hm0
    · exact Or.inr ⟨j, List.mem_cons_of_mem _ hj, hk, hv⟩

/-- The dict-building loop preserves existing entries. -/
lemma results_map_from_mem_init (schools : List String) (sr : Nat → SearchResponse)
    (fr : Nat → String → FetchResponse) (exc : Nat → Option String) :
    ∀ (order : List Nat) (m0 : List (String × MealRecord))
      (e : String × MealRecord), e ∈ m0 →
      e ∈ results_map_from schools sr fr exc order m0 := by
  intro order
  induction order with
  | nil => intro m0 e h; exact h
  | cons a rest ih =>
    intro m0 e h
    rw [results_map_from_cons]
    exact ih _ e (List.mem_cons_of_mem _ h)

/-- Each completed future's entry is present in the built dict. -/
lemma results_map_from_mem_of_order (schools : List String) (sr : Nat → SearchResponse)
    (fr : Nat → String → FetchResponse) (exc : Nat → Option String) :
    ∀ (order : List Nat) (m0 : List (String × MealRecord)) (j : Nat), j ∈ order →
      (schools.getD j "", handle_future schools sr fr exc j) ∈
        results_map_from schools sr fr exc order m0 := by
  intro order
  induction order with
  | nil => intro m0 j h; simp at h
  | cons a rest ih =>
    intro m0 j h
    rw [results_map_from_cons]
    rcases List.mem_cons.mp h with heq | hrest
    · subst heq
      exact results_map_from_mem_init schools sr fr exc rest _ _ (by simp)
    · exact ih _ j hrest

/-- A successful dict lookup returns an entry of the dict. -/
lemma mapLookup_mem : ∀ (m : List (String × MealRecord)) (k : String) (v : MealRecord),
    mapLookup m k = some v → (k, v) ∈ m := by
  intro m
  induction m with
  | nil => intro k v h; simp [mapLookup] at h
  | cons e rest ih =>
    intro k v h
    obtain ⟨ek, ev⟩ := e
    by_cases hk : ek == k
    · simp only [mapLookup, hk, if_true] at h
      obtain rfl := Option.some.inj h
      have : ek = k := by simpa using hk
      subst this
      simp
    · simp only [mapLookup, hk, if_false] at h
      exact List.mem_cons_of_mem _ (ih k v h)

/-- A key present in the dict has a successful lookup. -/
lemma mapLookup_isSome_of_mem :
    ∀ (m : List (String × MealRecord)) (k : String) (v : MealRecord),
      (k, v) ∈ m → ∃ w, mapLookup m k = some w := by
  intro m
  induction m with
  | nil => intro k v h; simp at h
  | cons e rest ih =>
    intro k v h
    obtain ⟨ek, ev⟩ := e
    by_cases hk : ek == k
    · exact ⟨ev, by simp [mapLookup, hk]⟩
    · rcases List.mem_cons.mp h with heq | hrest
      · obtain ⟨h1, _⟩ := Prod.mk.inj heq.symm
        exact absurd (by simp [h1]) hk
      · obtain ⟨w, hw⟩ := ih k v hrest
        exact ⟨w, by simp only [mapLookup, hk, if_false]; exact hw⟩

/-- The reassembly loop succeeds on every name whose lookup succeeds, and
its output lists, position by position, the looked-up records. -/
lemma gather_spec (m : List (String × MealRecord)) :
    ∀ names : List String, (∀ n ∈ names, ∃ w, mapLookup m n = some w) →
      ∃ l, gather m names = some l ∧ l.length = names.length ∧
        ∀ i (hi : i < l.length) (hn : i < names.length),
          mapLookup m (names.get ⟨i, hn⟩) = some (l.get ⟨i, hi⟩) := by
  intro names
  induction names with
  | nil =>
    intro _
    exact ⟨[], rfl, rfl, fun i hi _ => by simp at hi⟩
  | cons s rest ih =>
    intro h
    obtain ⟨w, hw⟩ := h s (by simp)
    obtain ⟨l, hl, hlen, hidx⟩ := ih (fun n hn => h n (List.mem_cons_of_mem _ hn))
    refine ⟨w :: l, by simp [gather, hw, hl], by simp [hlen], ?_⟩
    intro i hi hn
    cases i with
    | zero => simpa using hw
    | succ i2 =>
      have h1 : i2 < l.length := by simp at hi; omega
      have h2 : i2 < rest.length := by simp at hn; omega
      exact hidx i2 h1 h2

/-- Core property of the coordinator: for any completion order that is a
permutation of the dispatched futures, `runAll` returns a list, of the
input's length, whose `i`-th record is the record stored for some future
`j` whose school name equals the `i`-th input name. -/
lemma runAll_core (schools : List String) (sr : Nat → SearchResponse)
    (fr : Nat → String → FetchResponse) (exc : Nat → Option String)
    (order : List Nat) (hperm : order.Perm (List.range schools.length)) :
    ∃ l, runAll schools sr fr exc order = some l ∧
      l.length = schools.length ∧
      ∀ i (hi : i < l.length) (hs : i < schools.length),
        ∃ j, j ∈ order ∧ j < schools.length ∧
          schools.getD j "" = schools.get ⟨i, hs⟩ ∧
          l.get ⟨i, hi⟩ = handle_future schools sr fr exc j := by
  have hkeys : ∀ n ∈ schools,
      ∃ w, mapLookup (results_map schools sr fr exc order) n = some w := by
    intro n hn
    obtain ⟨⟨i, hi⟩, hget⟩ := List.mem_iff_get.mp hn
    have hio : i ∈ order := hperm.mem_iff.mpr (List.mem_range.mpr hi)
    have hmem := results_map_from_mem_of_order schools sr fr exc order [] i hio
    rw [getD_eq_get schools i hi, hget] at hmem
    exact mapLookup_isSome_of_mem _ _ _ hmem
  obtain ⟨l, hl, hlen, hidx⟩ := gather_spec _ schools hkeys
  refine ⟨l, hl, hlen, ?_⟩
  intro i hi hs
  have hlook := hidx i hi hs
  have hmem := mapLookup_mem _ _ _ hlook
  rcases results_map_from_mem schools sr fr exc order [] _ _ hmem with hin0 | ⟨j, hj, hk, hv⟩
  · simp at hin0
  · have hjlt : j < schools.length := List.mem_range.mp (hperm.mem_iff.mp hj)
    exact ⟨j, hj, hjlt, hk.symm, hv⟩

/-- C1: for every input list of `N` school entries, the coordinator
returns exactly `N` records, one per input entry and in input order (the
`i`-th record carries the `i`-th school's name), for any completion order
of the concurrent worker calls. -/
theorem runAll_complete_ordered (schools : List String) (sr : Nat → SearchResponse)
    (fr : Nat → String → FetchResponse) (exc : Nat → Option String)
    (order : List Nat) (hperm : order.Perm (List.range schools.length)) :
    ∃ l, runAll schools sr fr exc order = some l ∧
      l.length = schools.length ∧
      ∀ i (hi : i < l.length) (hs : i < schools.length),
        (l.get ⟨i, hi⟩).schoolName = schools.get ⟨i, hs⟩ := by
  obtain ⟨l, hl, hlen, hidx⟩ := runAll_core schools sr fr exc order hperm
  refine ⟨l, hl, hlen, ?_⟩
  intro i hi hs
  obtain ⟨j, _, _, hkey, hv⟩ := hidx i hi hs
  rw [hv, (handle_future_fields schools sr fr exc j).1, hkey]

/-- Witness for C1: a three-school instance with completion order
`[2, 0, 1]` still yields three records in input order. -/
theorem runAll_complete_ordered_check :
    ∃ l, runAll ["동점초등학교", "태백중학교", "황지고등학교"]
        (fun i => if i == 0 then SearchResponse.ok (some [SchoolRow.mk "동점초등학교" "W1"])
          else SearchResponse.err)
        (fun _ _ => FetchResponse.ok (some [MealRow.mk (some "밥<br/>국(2.5)")]))
        (fun i => if i == 2 then some "boom" else none) [2, 0, 1] = some l ∧
      l.length = 3 ∧
      ∀ i (hi : i < l.length)
        (hs : i < (["동점초등학교", "태백중학교", "황지고등학교"] : List String).length),
        (l.get ⟨i, hi⟩).schoolName =
          (["동점초등학교", "태백중학교", "황지고등학교"] : List String).get ⟨i, hs⟩ := by
  obtain ⟨l, h1, h2, h3⟩ := runAll_complete_ordered
    ["동점초등학교", "태백중학교", "황지고등학교"]
    (fun i => if i == 0 then SearchResponse.ok (some [SchoolRow.mk "동점초등학교" "W1"])
      else SearchResponse.err)
    (fun _ _ => FetchResponse.ok (some [MealRow.mk (some "밥<br/>국(2.5)")]))
    (fun i => if i == 2 then some "boom" else none) [2, 0, 1] (by decide)
  exact ⟨l, h1, by rw [h2]; rfl, h3⟩

/-- C6: an unexpected exception escaping a worker does not abort the
cycle — the coordinator substitutes the synthetic error record for that
school and `runAll` still returns one record per school in input order;
position `i` holds exactly the record stored for future `i`, which is the
synthetic `오류 발생` record whenever worker `i` raised. -/
theorem runAll_worker_error_substitution (schools : List String)
    (sr : Nat → SearchResponse) (fr : Nat → String → FetchResponse)
    (exc : Nat → Option String) (order : List Nat) (hnodup : schools.Nodup)
    (hperm : order.Perm (List.range schools.length)) :
    ∃ l, runAll schools sr fr exc order = some l ∧
      l.length = schools.length ∧
      (∀ i (hi : i < l.length),
        l.get ⟨i, hi⟩ = handle_future schools sr fr exc i) ∧
      (∀ i (hi : i < l.length) (e : String), exc i = some e →
        l.get ⟨i, hi⟩ =
          { category := get_school_category (schools.getD i ""),
            schoolName := schools.getD i "", menu := ["오류 발생: " ++ e] }) := by
  obtain ⟨l, hl, hlen, hidx⟩ := runAll_core schools sr fr exc order hperm
  have hpos : ∀ i (hi : i < l.length),
      l.get ⟨i, hi⟩ = handle_future schools sr fr exc i := by
    intro i hi
    have hs : i < schools.length := by rw [← hlen]; exact hi
    obtain ⟨j, _, hjlt, hkey, hv⟩ := hidx i hi hs
    rw [getD_eq_get schools j hjlt] at hkey
    have : (⟨j, hjlt⟩ : Fin schools.length) = ⟨i, hs⟩ :=
      (List.Nodup.get_inj_iff hnodup).mp hkey
    have hj : j = i := congrArg Fin.val this
    rw [hv, hj]
  refine ⟨l, hl, hlen, hpos, ?_⟩
  intro i hi e he
  rw [hpos i hi]
  unfold handle_future
  rw [he]

/-- Witness for C6: in the three-school instance, worker 2 raises `boom`
and position 2 of the output holds the synthetic error record. -/
theorem runAll_worker_error_substitution_check :
    ∃ l, runAll ["동점초등학교", "태백중학교", "황지고등학교"]
        (fun i => if i == 0 then SearchResponse.ok (some [SchoolRow.mk "동점초등학교" "W1"])
          else SearchResponse.err)
        (fun _ _ => FetchResponse.ok (some [MealRow.mk (some "밥<br/>국(2.5)")]))
        (fun i => if i == 2 then some "boom" else none) [2, 0, 1] = some l ∧
      ∀ hi : 2 < l.length,
        l.get ⟨2, hi⟩ =
          { category := "고등학교", schoolName := "황지고등학교",
            menu := ["오류 발생: boom"] } := by
  obtain ⟨l, h1, _, _, h4⟩ := runAll_worker_error_substitution
    ["동점초등학교", "태백중학교", "황지고등학교"]
    (fun i => if i == 0 then SearchResponse.ok (some [SchoolRow.mk "동점초등학교" "W1"])
      else SearchResponse.err)
    (fun _ _ => FetchResponse.ok (some [MealRow.mk (some "밥<br/>국(2.5)")]))
    (fun i => if i == 2 then some "boom" else none) [2, 0, 1] (by decide) (by decide)
  exact ⟨l, h1, fun hi => (h4 2 hi "boom" (by decide)).trans (by decide)⟩

/-- C10: every record `runAll` produces — through the success branch, the
identifier-not-found branch and the synthetic worker-error branch alike —
carries the input entry's name as its school name and the category that
`get_school_category` derives from that name. -/
theorem runAll_name_category_invariant (schools : List String)
    (sr : Nat → SearchResponse) (fr : Nat → String → FetchResponse)
    (exc : Nat → Option String) (order : List Nat)
    (hperm : order.Perm (List.range schools.length)) :
    ∃ l, runAll schools sr fr exc order = some l ∧
      l.length = schools.length ∧
      ∀ i (hi : i < l.length) (hs : i < schools.length),
        (l.get ⟨i, hi⟩).schoolName = schools.get ⟨i, hs⟩ ∧
        (l.get ⟨i, hi⟩).category = get_school_category (schools.get ⟨i, hs⟩) := by
  obtain ⟨l, hl, hlen, hidx⟩ := runAll_core schools sr fr exc order hperm
  refine ⟨l, hl, hlen, ?_⟩
  intro i hi hs
  obtain ⟨j, _, _, hkey, hv⟩ := hidx i hi hs
  constructor
  · rw [hv, (handle_future_fields schools sr fr exc j).1, hkey]
  · rw [hv, (handle_future_fields schools sr fr exc j).2, hkey]

/-- Witness for C10: in the three-school instance, the record at position
1 (a failed resolution) still carries the name 태백중학교 and the category
중학교. -/
theorem runAll_name_category_invariant_check :
    ∃ l, runAll ["동점초등학교", "태백중학교", "황지고등학교"]
        (fun i => if i == 0 then SearchResponse.ok (some [SchoolRow.mk "동점초등학교" "W1"])
          else SearchResponse.err)
        (fun _ _ => FetchResponse.ok (some [MealRow.mk (some "밥<br/>국(2.5)")]))
        (fun i => if i == 2 then some "boom" else none) [2, 0, 1] = some l ∧
      ∀ hi : 1 < l.length,
        (l.get ⟨1, hi⟩).schoolName = "태백중학교" ∧
        (l.get ⟨1, hi⟩).category = "중학교" := by
  obtain ⟨l, h1, h2, h3⟩ := runAll_name_category_invariant
    ["동점초등학교", "태백중학교", "황지고등학교"]
    (fun i => if i == 0 then SearchResponse.ok (some [SchoolRow.mk "동점초등학교" "W1"])
      else SearchResponse.err)
    (fun _ _ => FetchResponse.ok (some [MealRow.mk (some "밥<br/>국(2.5)")]))
    (fun i => if i == 2 then some "boom" else none) [2, 0, 1] (by decide)
  refine ⟨l, h1, fun hi => ?_⟩
  have hs : 1 < (["동점초등학교", "태백중학교", "황지고등학교"] : List String).length := by decide
  obtain ⟨ha, hb⟩ := h3 1 hi hs
  exact ⟨ha.trans rfl, hb.trans rfl⟩

/-- A worker mid-task is never in the idle pairs form. -/
lemma activeRem_eq_false_of_pairsForm :
    ∀ l : List PoolEvent, pairsForm l = true → activeRem l = false := by
  intro l h
  cases l with
  | nil => rfl
  | cons e rest =>
    cases e with
    | start i => rfl
    | finish i => exact absurd h (by rw [show pairsForm (PoolEvent.finish i :: rest) = false from rfl]; simp)

/-- The trace of one pool thread has the idle pairs form. -/
lemma pairsForm_workerTrace : ∀ tasks : List Nat, pairsForm (workerTrace tasks) = true := by
  intro tasks
  induction tasks with
  | nil => rfl
  | cons i rest ih =>
    rw [show workerTrace (i :: rest) =
      PoolEvent.start i :: PoolEvent.finish i :: workerTrace rest from rfl]
    rw [show pairsForm (PoolEvent.start i :: PoolEvent.finish i :: workerTrace rest) =
      (i == i && pairsForm (workerTrace rest)) from rfl]
    simp [ih]

/-- At most one task is mid-flight per worker. -/
lemma debt_le_length : ∀ ws : List (List PoolEvent), debt ws ≤ ws.length := by
  intro ws
  induction ws with
  | nil => exact Nat.le_refl 0
  | cons l rest ih =>
    by_cases h : activeRem l = true <;> simp [debt, h] <;> omega

/-- No task is mid-flight before the pool starts. -/
lemma debt_zero : ∀ ws : List (List PoolEvent),
    (∀ l ∈ ws, pairsForm l = true) → debt ws = 0 := by
  intro ws
  induction ws with
  | nil => intro _; rfl
  | cons l rest ih =>
    intro h
    have h1 : activeRem l = false := activeRem_eq_false_of_pairsForm l (h l (by simp))
    simp [debt, h1, ih (fun u hu => h u (List.mem_cons_of_mem _ hu))]

/-- Updating one worker's remaining trace changes the number of mid-flight
tasks by the difference of the old and new activity of that worker. -/
lemma debt_set_eq : ∀ (ws : List (List PoolEvent)) (k : Nat)
    (v old : List PoolEvent), ws.get? k = some old →
    debt (ws.set k v) + (if activeRem old then 1 else 0) =
      debt ws + (if activeRem v then 1 else 0) := by
  intro ws
  induction ws with
  | nil => intro k v old h; simp at h
  | cons w rest ih =>
    intro k v old h
    cases k with
    | zero =>
      obtain rfl : w = old := by simpa using h
      simp only [List.set, debt]
      omega
    | succ k2 =>
      have h2 : rest.get? k2 = some old := by simpa using h
      have := ih k2 v old h2
      simp only [List.set, debt]
      omega

/-- The start events are exactly the events `isStart` accepts. -/
lemma isStart_start (i : Nat) : isStart (PoolEvent.start i) = true := rfl

/-- Finish events are not start events. -/
lemma isStart_finish (i : Nat) : isStart (PoolEvent.finish i) = false := rfl

/-- Invariant of the interleaved execution: consuming any prefix `p` of a
remaining trace leaves the number of started-but-unfinished tasks (the
mid-flight tasks already owed by `ws` plus the starts of `p` minus the
finishes of `p`) at no more than the number of workers. -/
lemma pool_aux : ∀ (tr : List PoolEvent) (ws : List (List PoolEvent)),
    (∀ l ∈ ws, wfRem l = true) → interleaves ws tr = true →
    ∀ p q : List PoolEvent, tr = p ++ q →
      debt ws + nStarts p ≤ nFins p + ws.length := by
  intro tr
  induction tr with
  | nil =>
    intro ws hwf hint p q heq
    have hp : p = [] := by
      cases p with
      | nil => rfl
      | cons a b => simp at heq
    subst hp
    simpa [nStarts, nFins] using debt_le_length ws
  | cons x tr2 ih =>
    intro ws hwf hint p q heq
    unfold interleaves at hint
    rw [List.any_eq_true] at hint
    obtain ⟨k, hkmem, hfk⟩ := hint
    rcases hget : ws.get? k with _ | l
    · rw [hget] at hfk; simp at hfk
    rcases l with _ | ⟨y, rest⟩
    · rw [hget] at hfk; simp at hfk
    rw [hget] at hfk
    simp only [Bool.and_eq_true, beq_iff_eq] at hfk
    obtain ⟨hyx, hint2⟩ := hfk
    rw [hyx] at hget
    cases p with
    | nil => simpa [nStarts, nFins] using debt_le_length ws
    | cons z p2 =>
      injection heq with hz htr
      subst hz
      have hwfl : wfRem (x :: rest) = true := hwf _ (List.get?_mem hget)
      cases x with
      | start i =>
        have hpf : pairsForm (PoolEvent.start i :: rest) = true := by
          simpa [wfRem, show activeRem (PoolEvent.start i :: rest) = false from rfl]
            using hwfl
        rcases rest with _ | ⟨e, rest2⟩
        · exact absurd hpf (by rw [show pairsForm [PoolEvent.start i] = false from rfl]; simp)
        rcases e with j | j
        · exact absurd hpf (by
            rw [show pairsForm (PoolEvent.start i :: PoolEvent.start j :: rest2) = false from rfl]
            simp)
        rw [show pairsForm (PoolEvent.start i :: PoolEvent.finish j :: rest2) =
          (i == j && pairsForm rest2) from rfl] at hpf
        simp only [Bool.and_eq_true, beq_iff_eq] at hpf
        obtain ⟨rfl, hpf2⟩ := hpf
        have hact : activeRem (PoolEvent.finish i :: rest2) = true := by
          rw [show activeRem (PoolEvent.finish i :: rest2) = pairsForm rest2 from rfl]
          exact hpf2
        have hwf2 : ∀ l ∈ ws.set k (PoolEvent.finish i :: rest2), wfRem l = true := by
          intro l hl
          rcases List.mem_or_eq_of_mem_set hl with h | rfl
          · exact hwf l h
          · simp [wfRem, hact]
        have hih := ih (ws.set k (PoolEvent.finish i :: rest2)) hwf2 hint2 p2 q htr
        have hdebt := debt_set_eq ws k (PoolEvent.finish i :: rest2) _ hget
        rw [show activeRem (PoolEvent.start i :: PoolEvent.finish i :: rest2) = false from rfl]
          at hdebt
        rw [hact] at hdebt
        simp at hdebt
        rw [List.length_set] at hih
        simp [nStarts, nFins, List.countP_cons, isStart_start, isStart_finish] at hih ⊢
        omega
      | finish i =>
        have hact : activeRem (PoolEvent.finish i :: rest) = true := by
          have hpf : pairsForm (PoolEvent.finish i :: rest) = false := rfl
          simpa [wfRem, hpf] using hwfl
        have hpf2 : pairsForm rest = true := by
          rw [show activeRem (PoolEvent.finish i :: rest) = pairsForm rest from rfl] at hact
          exact hact
        have hwf2 : ∀ l ∈ ws.set k rest, wfRem l = true := by
          intro l hl
          rcases List.mem_or_eq_of_mem_set hl with h | rfl
          · exact hwf l h
          · simp [wfRem, hpf2]
        have hih := ih (ws.set k rest) hwf2 hint2 p2 q htr
        have hdebt := debt_set_eq ws k rest _ hget
        rw [hact, activeRem_eq_false_of_pairsForm rest hpf2] at hdebt
        simp at hdebt
        rw [List.length_set] at hih
        simp [nStarts, nFins, List.countP_cons, isStart_start, isStart_finish] at hih ⊢
        omega

/-- C9: the coordinator submits one worker task per school to a pool of at
most `max_workers` (= 10) threads, each thread running its assigned tasks
sequentially; along any interleaved execution trace the pool can produce,
at every instant (after any prefix of the trace) the number of worker
calls in flight — started and not yet finished — is at most
`max_workers`. -/
theorem pool_inflight_bound (assignment : List (List Nat)) (tr p q : List PoolEvent)
    (hw : assignment.length ≤ max_workers)
    (_htasks : assignment.flatten.Perm (List.range TAEBAEK_SCHOOLS.length))
    (hint : interleaves (assignment.map workerTrace) tr = true)
    (heq : tr = p ++ q) :
    nStarts p ≤ nFins p + max_workers := by
  have hwf : ∀ l ∈ assignment.map workerTrace, wfRem l = true := by
    intro l hl
    obtain ⟨tasks, _, rfl⟩ := List.mem_map.mp hl
    simp [wfRem, pairsForm_workerTrace]
  have h0 : debt (assignment.map workerTrace) = 0 :=
    debt_zero _ (fun l hl => by
      obtain ⟨tasks, _, rfl⟩ := List.mem_map.mp hl
      exact pairsForm_workerTrace tasks)
  have hmain := pool_aux tr (assignment.map workerTrace) hwf hint p q heq
  rw [h0, List.length_map] at hmain
  omega

/-- Witness for C9: a single worker executing all 23 school tasks in
sequence never exceeds the bound along its own full trace. -/
theorem pool_inflight_bound_check :
    nStarts (workerTrace (List.range 23)) ≤
      nFins (workerTrace (List.range 23)) + max_workers :=
  pool_inflight_bound [List.range 23] (workerTrace (List.range 23))
    (workerTrace (List.range 23)) [] (by decide) (by decide) (by decide) (by simp)
